import Mathlib

/-!
Verification development for the ExpenseWise household expense tracker.

The repository is a form-driven CRUD application over four entity
collections (expenses, vendors, categories, an income/summary singleton)
with two storage backends across its revisions: browser-local storage and
a Firestore-style document database.  The definitions below are shallow
embeddings of the TypeScript source, revision by revision:

* `src/types.ts` gives the record shapes (`Expense`, `Category`, `Vendor`,
  `IncomeSetting`, `SummaryData`).  Monetary amounts (JS `number`) are
  modelled as rationals, dates as integers, local numeric ids as `Int`,
  Firestore document ids as `Nat` drawn from a freshness counter.
* The dashboard pages give `summaryData` (full-rescan total) and the
  balance computation.
* The expenses page (second revision) gives the running-counter variant:
  `addExpenseMutation` / `deleteExpenseMutation` group the expense write
  and the summary-counter update in one `writeBatch`, which commits
  atomically; `Reach` enumerates the observable store states.
* The vendor and category screens give the create/update/delete handlers
  of every revision, with their duplicate-name and in-use checks.

Operations that mutate a collection return the collection (or store)
after the operation together with an `Option String` error, so that
"fails and leaves the collection unchanged" is directly expressible.
-/

/-- An expense record of the local-storage revisions (src/types.ts, first
revision): numeric id, date, category name, optional vendor name, amount,
optional notes. -/
structure Expense where
  id : Int
  date : Int
  category : String
  vendor : Option String
  amount : ℚ
  notes : Option String
deriving DecidableEq, Repr

/-- Sum of the amounts of a list of local expenses. -/
def sumAmounts (l : List Expense) : ℚ :=
  (l.map (fun e => e.amount)).sum

/-- The dashboard summary triple computed client-side
(src/unnamed/part_002, lines 95-102). -/
structure DashboardSummary where
  income : ℚ
  expenses : ℚ
  balance : ℚ
deriving DecidableEq, Repr

/-- `summaryData` of the local-storage dashboard (src/unnamed/part_002,
lines 95-102): the full-rescan variant.  `totalExpenses` is recomputed by
reducing over the whole expense list, and the balance is income minus that
total. -/
def summaryData (expenses : List Expense) (income : ℚ) : DashboardSummary :=
  let totalExpenses := expenses.foldl (fun sum exp => sum + exp.amount) 0
  { income := income, expenses := totalExpenses, balance := income - totalExpenses }

/-- An expense document of the Firestore revisions (src/types.ts, second
revision): string document id (modelled as a counter-generated `Nat`),
date, category name, optional vendor name, amount, optional notes. -/
structure FsExpense where
  id : Nat
  date : Int
  category : String
  vendor : Option String
  amount : ℚ
  notes : Option String
deriving DecidableEq, Repr

/-- The `globalSummary` settings document (src/types.ts `SummaryData`):
running total of expense amounts and expense count. -/
structure SummaryData where
  totalExpenses : ℚ
  expenseCount : Int
deriving DecidableEq, Repr

/-- The remote document store as the expense screens see it: the
`expenses` collection, the `settings/userIncome` document, the
`settings/globalSummary` document, and a freshness counter standing for
Firestore's generation of new document ids. -/
structure Store where
  expenses : List FsExpense
  income : Option ℚ
  summary : Option SummaryData
  nextId : Nat
deriving DecidableEq, Repr

/-- The store before any operation: no documents at all. -/
def emptyStore : Store :=
  { expenses := [], income := none, summary := none, nextId := 0 }

/-- Sum of the amounts of a list of Firestore expense documents. -/
def fsSumAmounts (l : List FsExpense) : ℚ :=
  (l.map (fun e => e.amount)).sum

/-- Validated output of `expenseFormSchema`
(src/src/app/expenses/page.tsx, lines 91-97). -/
structure ExpenseFormValues where
  date : Int
  amount : ℚ
  category : String
  vendor : Option String
  notes : Option String
deriving DecidableEq, Repr

/-- `ensureSummaryDocExists` (src/src/app/expenses/page.tsx, second
revision, lines 683-698): create the `globalSummary` document with zeroed
fields when it is missing. -/
def ensureSummaryDocExists (s : Store) : Store :=
  match s.summary with
  | some _ => s
  | none => { s with summary := some { totalExpenses := 0, expenseCount := 0 } }

/-- The batch commit inside `addExpenseMutation`
(src/src/app/expenses/page.tsx, lines 702-727): one atomic multi-document
write that sets the new expense document and increments
`totalExpenses`/`expenseCount` on the summary document. -/
def commitAddExpense (s : Store) (v : ExpenseFormValues) : Store :=
  { s with
    expenses := s.expenses ++
      [{ id := s.nextId, date := v.date, category := v.category,
         vendor := v.vendor, amount := v.amount, notes := v.notes }],
    summary := s.summary.map (fun m =>
      { totalExpenses := m.totalExpenses + v.amount,
        expenseCount := m.expenseCount + 1 }),
    nextId := s.nextId + 1 }

/-- The batch commit inside `deleteExpenseMutation`
(src/src/app/expenses/page.tsx, lines 759-777): one atomic multi-document
write that deletes the expense document with the given id and decrements
`totalExpenses` by the caller-supplied amount and `expenseCount` by one. -/
def commitDeleteExpense (s : Store) (id : Nat) (amount : ℚ) : Store :=
  { s with
    expenses := s.expenses.filter (fun e => e.id != id),
    summary := s.summary.map (fun m =>
      { totalExpenses := m.totalExpenses - amount,
        expenseCount := m.expenseCount - 1 }) }

/-- The observable states of the store under the expense screens: the
empty store, the state after the awaited `ensureSummaryDocExists` call,
and the states after each committed batch.  A batch commits only after
`ensureSummaryDocExists` has run, so the summary document exists; the UI
invokes deletion as `deleteExpense(expense.id, expense.amount)` on an
expense currently in the list (src/src/app/expenses/page.tsx,
line 1073). -/
inductive Reach : Store → Prop where
  | init : Reach emptyStore
  | ensure {s : Store} : Reach s → Reach (ensureSummaryDocExists s)
  | add {s : Store} (v : ExpenseFormValues) : Reach s →
      s.summary.isSome = true → Reach (commitAddExpense s v)
  | del {s : Store} (e : FsExpense) : Reach s →
      s.summary.isSome = true → e ∈ s.expenses →
      Reach (commitDeleteExpense s e.id e.amount)

/-- The coupling invariant between the expense collection and the summary
document, together with bookkeeping facts about document ids. -/
def StoreInv (s : Store) : Prop :=
  (s.summary = none → s.expenses = []) ∧
  (∀ m, s.summary = some m →
      m.totalExpenses = fsSumAmounts s.expenses ∧
      m.expenseCount = (s.expenses.length : Int)) ∧
  (∀ e ∈ s.expenses, e.id < s.nextId) ∧
  (s.expenses.map (fun e => e.id)).Nodup

theorem fsSumAmounts_append (l₁ l₂ : List FsExpense) :
    fsSumAmounts (l₁ ++ l₂) = fsSumAmounts l₁ + fsSumAmounts l₂ := by
  simp [fsSumAmounts]

theorem filter_delete_of_nodup (l : List FsExpense) (e : FsExpense)
    (hmem : e ∈ l) (hnd : (l.map (fun x => x.id)).Nodup) :
    fsSumAmounts (l.filter (fun x => x.id != e.id)) = fsSumAmounts l - e.amount ∧
    (l.filter (fun x => x.id != e.id)).length + 1 = l.length := by
  induction l with
  | nil => cases hmem
  | cons h t ih =>
    simp only [List.map_cons, List.nodup_cons] at hnd
    rcases List.mem_cons.mp hmem with heq | hmem'
    · subst heq
      have hkeep : t.filter (fun x => x.id != e.id) = t := by
        apply List.filter_eq_self.mpr
        intro a ha
        have : a.id ≠ e.id := by
          intro hid
          exact hnd.1 (by simpa [hid] using List.mem_map_of_mem (fun x => x.id) ha)
        simpa using this
      constructor
      · simp [hkeep, fsSumAmounts]
      · simp [hkeep]
    · have hne : h.id ≠ e.id := by
        intro hid
        exact hnd.1 (by simpa [hid] using List.mem_map_of_mem (fun x => x.id) hmem')
      have hrec := ih hmem' hnd.2
      have hcons : (h :: t).filter (fun x => x.id != e.id)
          = h :: t.filter (fun x => x.id != e.id) := by
        simp [List.filter_cons, hne]
      constructor
      · rw [hcons]
        have h1 := hrec.1
        simp only [fsSumAmounts, List.map_cons, List.sum_cons] at h1 ⊢
        rw [h1]
        ring
      · rw [hcons]
        have h2 := hrec.2
        simp only [List.length_cons]
        omega

theorem reach_inv {s : Store} (hs : Reach s) : StoreInv s := by
  induction hs with
  | init =>
    refine ⟨fun _ => rfl, ?_, ?_, ?_⟩
    · intro m hm; cases hm
    · intro e he; cases he
    · simp [emptyStore]
  | ensure h ih =>
    rename_i s₀
    obtain ⟨es, inc, sumo, nid⟩ := s₀
    obtain ⟨hn, hm, hid, hnd⟩ := ih
    cases sumo with
    | some m => exact ⟨hn, hm, hid, hnd⟩
    | none =>
      have hempty : es = [] := hn rfl
      subst hempty
      refine ⟨fun _ => rfl, ?_, ?_, ?_⟩
      · intro m hm
        have hmv : ({ totalExpenses := 0, expenseCount := 0 } : SummaryData) = m :=
          Option.some.inj hm
        subst hmv
        exact ⟨rfl, rfl⟩
      · intro e he; cases he
      · exact List.nodup_nil
  | add v h hsome ih =>
    rename_i s₀
    obtain ⟨es, inc, sumo, nid⟩ := s₀
    obtain ⟨hn, hm, hid, hnd⟩ := ih
    dsimp only at hn hm hid hnd hsome ⊢
    obtain ⟨m₀, hm₀⟩ := Option.isSome_iff_exists.mp hsome
    subst hm₀
    have hfacts := hm m₀ rfl
    simp only [commitAddExpense, Option.map_some]
    refine ⟨?_, ?_, ?_, ?_⟩
    · intro hcontra; exact Option.noConfusion hcontra
    · intro m hmeq
      have hmv := Option.some.inj hmeq
      subst hmv
      constructor
      · dsimp only
        rw [fsSumAmounts_append, hfacts.1]
        simp [fsSumAmounts]
      · dsimp only
        rw [hfacts.2]
        simp
    · intro x hx
      dsimp only at hx ⊢
      rcases List.mem_append.mp hx with hx1 | hx1
      · have hlt := hid x hx1
        omega
      · have hxe := List.mem_singleton.mp hx1
        subst hxe
        exact Nat.lt_succ_self _
    · dsimp only
      rw [List.map_append, List.nodup_append]
      refine ⟨hnd, List.nodup_singleton _, ?_⟩
      intro a ha hb
      simp only [List.map_cons, List.map_nil, List.mem_singleton] at hb
      subst hb
      obtain ⟨x, hxmem, hxeq⟩ := List.mem_map.mp ha
      have hlt := hid x hxmem
      omega
  | del e h hsome hmem ih =>
    rename_i s₀
    obtain ⟨es, inc, sumo, nid⟩ := s₀
    obtain ⟨hn, hm, hid, hnd⟩ := ih
    dsimp only at hn hm hid hnd hsome hmem ⊢
    obtain ⟨m₀, hm₀⟩ := Option.isSome_iff_exists.mp hsome
    subst hm₀
    have hfacts := hm m₀ rfl
    have hdel := filter_delete_of_nodup es e hmem hnd
    simp only [commitDeleteExpense, Option.map_some]
    refine ⟨?_, ?_, ?_, ?_⟩
    · intro hcontra; exact Option.noConfusion hcontra
    · intro m hmeq
      have hmv := Option.some.inj hmeq
      subst hmv
      constructor
      · dsimp only
        rw [hdel.1, hfacts.1]
      · dsimp only
        rw [hfacts.2]
        have h2 := hdel.2
        omega
    · intro x hx
      dsimp only at hx ⊢
      exact hid x (List.mem_filter.mp hx).1
    · dsimp only
      exact List.Nodup.sublist (List.Sublist.map _ (List.filter_sublist _)) hnd

/-- The dashboard balance (src/src/app/page.tsx, second revision, lines
215-219): fetched income (default 0) minus the summary document's
`totalExpenses` (default 0). -/
def dashboardBalance (s : Store) : ℚ :=
  (s.income.getD 0) - ((s.summary.map (fun m => m.totalExpenses)).getD 0)

theorem foldl_add_amount (l : List Expense) (a : ℚ) :
    l.foldl (fun sum exp => sum + exp.amount) a = a + sumAmounts l := by
  induction l generalizing a with
  | nil => simp [sumAmounts]
  | cons h t ih =>
    simp only [List.foldl_cons, ih, sumAmounts, List.map_cons, List.sum_cons]
    ring

/-- Claim C1: for every sequence of expense create and delete operations
starting from the empty store, the derived total-expenses value equals the
sum of the amounts of the expenses currently in the collection, and the
derived balance equals the stored income minus that total — both for the
full-rescan variant (`summaryData`, a reduce over the expense list) and
for the running-counter variant (`commitAddExpense` increments,
`commitDeleteExpense` decrements by the caller-supplied amount). -/
theorem c1_totals_and_balance (es : List Expense) (inc : ℚ)
    (s : Store) (hs : Reach s) :
    (summaryData es inc).expenses = sumAmounts es ∧
    (summaryData es inc).balance = inc - sumAmounts es ∧
    (∀ m, s.summary = some m → m.totalExpenses = fsSumAmounts s.expenses) ∧
    dashboardBalance s = s.income.getD 0 - fsSumAmounts s.expenses := by
  have hrescan : (summaryData es inc).expenses = sumAmounts es := by
    simp [summaryData, foldl_add_amount]
  have hinv := reach_inv hs
  refine ⟨hrescan, ?_, ?_, ?_⟩
  · simp only [summaryData]
    rw [foldl_add_amount]
    simp
  · intro m hm
    exact (hinv.2.1 m hm).1
  · unfold dashboardBalance
    cases hsum : s.summary with
    | none =>
      have hempty := hinv.1 hsum
      simp [hempty, fsSumAmounts]
    | some m =>
      have := (hinv.2.1 m hsum).1
      simp [this]

/-- A concrete reachable store used to witness the reachability
hypotheses: the empty store after `ensureSummaryDocExists` and one
committed expense batch of amount 3. -/
def demoStore : Store :=
  commitAddExpense (ensureSummaryDocExists emptyStore)
    { date := 0, amount := 3, category := "Groceries", vendor := none, notes := none }

theorem demoStore_reach : Reach demoStore :=
  Reach.add _ (Reach.ensure Reach.init) rfl

/-- Witness for C1 at a concrete input. -/
theorem c1_totals_and_balance_witness :
    (summaryData [] 0).expenses = sumAmounts [] ∧
    (summaryData [] 0).balance = 0 - sumAmounts [] ∧
    (∀ m, demoStore.summary = some m →
        m.totalExpenses = fsSumAmounts demoStore.expenses) ∧
    dashboardBalance demoStore = demoStore.income.getD 0 - fsSumAmounts demoStore.expenses :=
  c1_totals_and_balance [] 0 demoStore demoStore_reach

/-- Claim C4: in the running-counter variant every expense create and
delete applies the expense-document change and the summary-counter change
in one atomic batch (`commitAddExpense` / `commitDeleteExpense`), so no
reachable observable state of the store shows the expense change applied
without the matching counter change or vice versa: in every reachable
state the summary document, when present, carries exactly the sum and
count of the expense collection, and it is absent only while the
collection is empty. -/
theorem c4_no_half_applied_state (s : Store) (hs : Reach s) :
    (s.summary = none → s.expenses = []) ∧
    (∀ m, s.summary = some m →
        m.totalExpenses = fsSumAmounts s.expenses ∧
        m.expenseCount = (s.expenses.length : Int)) := by
  have hinv := reach_inv hs
  exact ⟨hinv.1, hinv.2.1⟩

/-- Witness for C4 at a concrete reachable store. -/
theorem c4_no_half_applied_state_witness :
    (demoStore.summary = none → demoStore.expenses = []) ∧
    (∀ m, demoStore.summary = some m →
        m.totalExpenses = fsSumAmounts demoStore.expenses ∧
        m.expenseCount = (demoStore.expenses.length : Int)) :=
  c4_no_half_applied_state demoStore demoStore_reach

/-- Raw form input for the expense form: the amount as parsed by
`z.coerce.number()` (`none` models a non-numeric input), plus the other
fields. -/
structure ExpenseFormInput where
  date : Int
  amount : Option ℚ
  category : String
  vendor : Option String
  notes : Option String
deriving DecidableEq, Repr

/-- `expenseFormSchema` (src/src/app/expenses/page.tsx, lines 91-97):
the amount must coerce to a number and be strictly positive, the category
must be a non-empty string. -/
def expenseFormSchema (input : ExpenseFormInput) :
    Except String ExpenseFormValues :=
  match input.amount with
  | none => Except.error ("Expected number, received nan")
  | some a =>
    if a > 0 then
      if input.category.length ≥ 1 then
        Except.ok { date := input.date, amount := a, category := input.category,
                    vendor := input.vendor, notes := input.notes }
      else Except.error ("Category is required.")
    else Except.error ("Amount must be positive.")

/-- The expense form submit pipeline
(src/src/app/expenses/page.tsx, lines 224-226 and 831-833):
`form.handleSubmit(onSubmit)` runs the zod resolver first and calls
`onSubmit` — and hence `addExpenseMutation` — only on validated values;
on a validation error no persistence call is made. -/
def handleSubmitExpense (s : Store) (input : ExpenseFormInput) :
    Store × Option String :=
  match expenseFormSchema input with
  | Except.error e => (s, some e)
  | Except.ok v => (commitAddExpense (ensureSummaryDocExists s) v, none)

/-- Claim C5: an expense-creation input whose amount is not a number or
is ≤ 0 is rejected by form validation, no persistence call is made and
the store is unchanged. -/
theorem c5_nonpositive_amount_rejected (s : Store) (input : ExpenseFormInput)
    (h : ∀ a, input.amount = some a → a ≤ 0) :
    (handleSubmitExpense s input).1 = s ∧
    (handleSubmitExpense s input).2.isSome = true := by
  unfold handleSubmitExpense expenseFormSchema
  cases ham : input.amount with
  | none => exact ⟨rfl, rfl⟩
  | some a =>
    have hle := h a ham
    have : ¬ (a > 0) := not_lt.mpr hle
    simp [this]

/-- Witness for C5: an amount of -1 is rejected and leaves the store
unchanged. -/
theorem c5_nonpositive_amount_rejected_witness :
    (handleSubmitExpense emptyStore
        { date := 0, amount := some (-1), category := "Groceries",
          vendor := none, notes := none }).1 = emptyStore ∧
    (handleSubmitExpense emptyStore
        { date := 0, amount := some (-1), category := "Groceries",
          vendor := none, notes := none }).2.isSome = true :=
  c5_nonpositive_amount_rejected emptyStore _
    (by intro a ha; cases Option.some.inj ha; norm_num)

/-- `deleteCollection` (src/unnamed/part_003, lines 582-598): repeatedly
fetch up to 500 documents of the collection and delete them in one batch,
until the fetch returns none. -/
def deleteCollection (docs : List FsExpense) : List FsExpense :=
  if _h : docs.length = 0 then docs
  else deleteCollection (docs.drop 500)
termination_by docs.length
decreasing_by
  simp only [List.length_drop]
  omega

theorem deleteCollection_eq_nil (docs : List FsExpense) :
    deleteCollection docs = [] := by
  induction docs using deleteCollection.induct with
  | case1 docs h =>
    rw [deleteCollection]
    simp only [h, dite_true]
    exact List.eq_nil_of_length_eq_zero h
  | case2 docs h ih =>
    rw [deleteCollection]
    simp [h, ih]

/-- `resetDataMutation` (src/unnamed/part_003, lines 711-745): delete the
whole expense collection with `deleteCollection`, then set the income
document to 0 and the summary document to zeroed fields in one batch. -/
def resetData (s : Store) : Store :=
  let afterDelete := { s with expenses := deleteCollection s.expenses }
  { afterDelete with
    income := some 0,
    summary := some { totalExpenses := 0, expenseCount := 0 } }

/-- Claim C7: the full data reset, run from any store state, terminates
(`deleteCollection` is a total function, deleting in batches of at most
500 documents until none remain) and yields the state with an empty
expense collection, income 0 and a zeroed summary document. -/
theorem c7_reset_data (s : Store) :
    (resetData s).expenses = [] ∧
    (resetData s).income = some 0 ∧
    (resetData s).summary = some { totalExpenses := 0, expenseCount := 0 } ∧
    deleteCollection s.expenses = [] := by
  refine ⟨?_, rfl, rfl, deleteCollection_eq_nil s.expenses⟩
  show deleteCollection s.expenses = []
  exact deleteCollection_eq_nil s.expenses

/-- `handleIncomeUpdate` combined with `updateIncomeMutation`
(src/src/app/page.tsx, lines 223-251 and 262-274): parse the input
(`none` models a NaN parse), accept any value ≥ 0 and persist it over the
income singleton with a merge write, otherwise report an error and write
nothing. -/
def handleIncomeUpdate (s : Store) (input : Option ℚ) :
    Store × Option String :=
  match input with
  | none => (s, some ("Invalid Income Amount"))
  | some incomeValue =>
    if incomeValue ≥ 0 then
      ({ s with income := some incomeValue }, none)
    else
      (s, some ("Invalid Income Amount"))

/-- Claim C8: the income update accepts every non-negative numeric input
(zero included) and persists it as the new singleton value, and rejects
every negative or non-numeric input without writing to the store. -/
theorem c8_income_update (s : Store) (v : ℚ) :
    (0 ≤ v → handleIncomeUpdate s (some v) = ({ s with income := some v }, none)) ∧
    (v < 0 → handleIncomeUpdate s (some v) = (s, some ("Invalid Income Amount"))) ∧
    handleIncomeUpdate s none = (s, some ("Invalid Income Amount")) ∧
    handleIncomeUpdate s (some 0) = ({ s with income := some 0 }, none) := by
  refine ⟨?_, ?_, rfl, ?_⟩
  · intro hv
    simp [handleIncomeUpdate, hv]
  · intro hv
    simp [handleIncomeUpdate, not_le.mpr hv, le_of_lt hv]
  · simp [handleIncomeUpdate]

/-- Witness for C8: income 5 and 0 are accepted and persisted, -2 is
rejected without a write. -/
theorem c8_income_update_witness :
    handleIncomeUpdate emptyStore (some 5)
      = ({ emptyStore with income := some 5 }, none) ∧
    handleIncomeUpdate emptyStore (some (-2))
      = (emptyStore, some ("Invalid Income Amount")) ∧
    handleIncomeUpdate emptyStore (some 0)
      = ({ emptyStore with income := some 0 }, none) :=
  ⟨(c8_income_update emptyStore 5).1 (by norm_num),
   (c8_income_update emptyStore (-2)).2.1 (by norm_num),
   (c8_income_update emptyStore 0).2.2.2⟩

/-- A category record of the local-storage revisions (src/types.ts,
first revision): numeric id and name. -/
structure Category where
  id : Int
  name : String
deriving DecidableEq, Repr

/-- A vendor record of the local-storage revisions (src/types.ts, first
revision): numeric id, name and optional contact fields. -/
structure Vendor where
  id : Int
  name : String
  contactPerson : Option String
  contactEmail : Option String
  contactPhone : Option String
deriving DecidableEq, Repr

/-- JS `String.prototype.toLowerCase`, modelled as lowering every
character (kernel-computable, unlike the stock string-lowering helper). -/
def jsToLower (s : String) : String :=
  ⟨s.data.map Char.toLower⟩

/-- Validated output of `vendorFormSchema`
(src/src/app/vendors/page.tsx, lines 54-59). -/
structure VendorFormValues where
  name : String
  contactPerson : Option String
  contactEmail : Option String
  contactPhone : Option String
deriving DecidableEq, Repr

/-- `Math.max(x, ...xs)`: fold of the binary max over a list with an
explicit first argument. -/
def mathMax (x : Int) (xs : List Int) : Int :=
  xs.foldl max x

/-- The id formula of the later local-storage creates
(src/src/app/categories/page.tsx line 163, src/src/app/vendors/page.tsx
lines 142 and 517): `(list.length > 0 ? Math.max(...ids) : 0) + 1`. -/
def nextLocalId (ids : List Int) : Int :=
  (match ids with
   | [] => 0
   | x :: xs => mathMax x xs) + 1

/-- The id formula of the earliest vendors revision
(src/unnamed/part_000, line 111): `Math.max(0, ...ids) + 1`. -/
def nextLocalIdV0 (ids : List Int) : Int :=
  mathMax 0 ids + 1

/-- The spread `{ ...vendor, ...data }` of the vendor update branches:
every form field overwrites the stored one, the id is kept. -/
def applyVendorForm (v : Vendor) (d : VendorFormValues) : Vendor :=
  { id := v.id, name := d.name, contactPerson := d.contactPerson,
    contactEmail := d.contactEmail, contactPhone := d.contactPhone }

/-- A fresh vendor record built from the form, as in the add branches. -/
def mkVendor (id : Int) (d : VendorFormValues) : Vendor :=
  { id := id, name := d.name, contactPerson := d.contactPerson,
    contactEmail := d.contactEmail, contactPhone := d.contactPhone }

/-- `onSubmit` of the local-storage categories screen
(src/src/app/categories/page.tsx, lines 142-174): reject when another
record (the one being edited excluded) already carries the name
case-insensitively; otherwise update in place or prepend a new record
with id `nextLocalId`. -/
def categoriesOnSubmit (categories : List Category)
    (editingCategoryId : Option Int) (name : String) :
    List Category × Option String :=
  let existingCategory := categories.find? (fun c =>
    jsToLower c.name == jsToLower name && some c.id != editingCategoryId)
  match existingCategory with
  | some _ => (categories, some ("Category name already exists."))
  | none =>
    match editingCategoryId with
    | some eid =>
        (categories.map (fun category =>
          if category.id == eid then { category with name := name }
          else category), none)
    | none =>
        ({ id := nextLocalId (categories.map (fun c => c.id)), name := name }
           :: categories, none)

/-- `onSubmit` of the earliest vendors revision (src/unnamed/part_000,
lines 95-121): no duplicate-name check at all; update in place or prepend
a new record with id `nextLocalIdV0`. -/
def vendorsOnSubmitV0 (vendors : List Vendor) (editingVendorId : Option Int)
    (data : VendorFormValues) : List Vendor × Option String :=
  match editingVendorId with
  | some eid =>
      (vendors.map (fun vendor =>
        if vendor.id == eid then applyVendorForm vendor data else vendor), none)
  | none =>
      (mkVendor (nextLocalIdV0 (vendors.map (fun v => v.id))) data :: vendors,
       none)

/-- `onSubmit` of the first local-storage vendors revision
(src/src/app/vendors/page.tsx, lines 120-152): the duplicate-name check
fires only when adding (`editingVendorId === null`); updates skip it. -/
def vendorsOnSubmitV1 (vendors : List Vendor) (editingVendorId : Option Int)
    (data : VendorFormValues) : List Vendor × Option String :=
  let existingVendor := vendors.find? (fun v =>
    jsToLower v.name == jsToLower data.name && some v.id != editingVendorId)
  if existingVendor.isSome && editingVendorId == none then
    (vendors, some ("Vendor name already exists."))
  else
    match editingVendorId with
    | some eid =>
        (vendors.map (fun vendor =>
          if vendor.id == eid then applyVendorForm vendor data else vendor), none)
    | none =>
        (mkVendor (nextLocalId (vendors.map (fun v => v.id))) data :: vendors,
         none)

/-- `onSubmit` of the second local-storage vendors revision
(src/src/app/vendors/page.tsx, lines 495-528): the duplicate check fires
when adding, or when editing and the edited record's own name differs
(case-insensitively) from the submitted one. -/
def vendorsOnSubmitV2 (vendors : List Vendor) (editingVendorId : Option Int)
    (data : VendorFormValues) : List Vendor × Option String :=
  let existingVendor := vendors.find? (fun v =>
    jsToLower v.name == jsToLower data.name && some v.id != editingVendorId)
  let ownNameMatches :=
    match vendors.find? (fun v => some v.id == editingVendorId) with
    | some v => jsToLower v.name == jsToLower data.name
    | none => false
  if existingVendor.isSome && (editingVendorId == none || !ownNameMatches) then
    (vendors, some ("Vendor name already exists."))
  else
    match editingVendorId with
    | some eid =>
        (vendors.map (fun vendor =>
          if vendor.id == eid then applyVendorForm vendor data else vendor), none)
    | none =>
        (mkVendor (nextLocalId (vendors.map (fun v => v.id))) data :: vendors,
         none)

/-- `deleteCategory` of the local-storage categories screen
(src/src/app/categories/page.tsx, lines 176-217): a missing id is a
no-op; a category referenced by some expense in local storage is not
deleted and an error is reported; otherwise the record is filtered out. -/
def deleteCategory (categories : List Category) (expenses : List Expense)
    (id : Int) : List Category × Option String :=
  match categories.find? (fun c => c.id == id) with
  | none => (categories, none)
  | some categoryToDelete =>
    if expenses.any (fun exp => exp.category == categoryToDelete.name) then
      (categories, some ("Cannot Delete Category"))
    else
      (categories.filter (fun category => category.id != id), none)

/-- `deleteVendor` of the earliest vendors revisions (src/unnamed/part_000
lines 123-137 and src/src/app/vendors/page.tsx lines 154-171): a missing
id is a no-op, otherwise the vendor is filtered out with NO check against
the expense collection. -/
def deleteVendorV1 (vendors : List Vendor) (id : Int) :
    List Vendor × Option String :=
  match vendors.find? (fun v => v.id == id) with
  | none => (vendors, none)
  | some _ => (vendors.filter (fun vendor => vendor.id != id), none)

/-- `deleteVendor` of the second local-storage vendors revision
(src/src/app/vendors/page.tsx, lines 530-570): like `deleteCategory`,
blocked with an error while any expense references the vendor name. -/
def deleteVendorV2 (vendors : List Vendor) (expenses : List Expense)
    (id : Int) : List Vendor × Option String :=
  match vendors.find? (fun v => v.id == id) with
  | none => (vendors, none)
  | some vendorToDelete =>
    if expenses.any (fun exp => exp.vendor == some vendorToDelete.name) then
      (vendors, some ("Cannot Delete Vendor"))
    else
      (vendors.filter (fun vendor => vendor.id != id), none)

/-- A category document of the Firestore revisions (src/types.ts, second
revision): string document id and name. -/
structure FsCategory where
  id : String
  name : String
deriving DecidableEq, Repr

/-- A vendor document of the Firestore revisions (src/types.ts, second
revision). -/
structure FsVendor where
  id : String
  name : String
  contactPerson : Option String
  contactEmail : Option String
  contactPhone : Option String
deriving DecidableEq, Repr

/-- `addVendorMutation` (src/unnamed/part_001, lines 104-135): reject when
any cached vendor already carries the name case-insensitively, otherwise
`addDoc` a new document (its Firestore-generated id passed as `newId`). -/
def addVendorMutation (vendors : List FsVendor) (newVendorData : VendorFormValues)
    (newId : String) : List FsVendor × Option String :=
  let lowerCaseName := jsToLower newVendorData.name
  if vendors.any (fun v => jsToLower v.name == lowerCaseName) then
    (vendors, some ("Vendor name already exists."))
  else
    (vendors ++
      [{ id := newId, name := newVendorData.name,
         contactPerson := newVendorData.contactPerson,
         contactEmail := newVendorData.contactEmail,
         contactPhone := newVendorData.contactPhone }], none)

/-- `updateVendorMutation` (src/unnamed/part_001, lines 138-171): reject
when a vendor other than the edited one carries the name
case-insensitively, otherwise `updateDoc` the document's form fields. -/
def updateVendorMutation (vendors : List FsVendor) (id : String)
    (data : VendorFormValues) : List FsVendor × Option String :=
  let lowerCaseName := jsToLower data.name
  if vendors.any (fun v => v.id != id && jsToLower v.name == lowerCaseName) then
    (vendors, some ("Vendor name already exists."))
  else
    (vendors.map (fun v =>
      if v.id == id then
        { id := v.id, name := data.name,
          contactPerson := data.contactPerson,
          contactEmail := data.contactEmail,
          contactPhone := data.contactPhone }
      else v), none)

/-- `deleteVendorMutation` (src/unnamed/part_001, lines 174-220): error
when the id is unknown; error (and no write) when any expense document
references the vendor name; otherwise delete the document. -/
def deleteVendorMutation (vendors : List FsVendor) (expenses : List FsExpense)
    (id : String) : List FsVendor × Option String :=
  match vendors.find? (fun v => v.id == id) with
  | none => (vendors, some ("Vendor not found."))
  | some vendorToDelete =>
    if expenses.any (fun e => e.vendor == some vendorToDelete.name) then
      (vendors, some ("Vendor is currently assigned to one or more expenses."))
    else
      (vendors.filter (fun v => v.id != id), none)

/-- `addCategoryMutation` (src/unnamed/part_003, lines 1104-1120): the
Firestore query `where("name", "==", newName)` is case-SENSITIVE, and the
client-side case-insensitive check runs only when that query returns a
document; otherwise `addDoc` runs. -/
def addCategoryMutation (categories : List FsCategory) (newName : String)
    (newId : String) : List FsCategory × Option String :=
  let existingSnapshot := categories.filter (fun c => c.name == newName)
  if existingSnapshot.isEmpty = false then
    if categories.any (fun cat => jsToLower cat.name == jsToLower newName) then
      (categories, some ("Category name already exists."))
    else
      (categories ++ [{ id := newId, name := newName }], none)
  else
    (categories ++ [{ id := newId, name := newName }], none)

/-- `updateCategoryMutation` (src/unnamed/part_003, lines 1143-1155):
reject when a category other than the edited one carries the name
case-insensitively, otherwise `updateDoc` the name. -/
def updateCategoryMutation (categories : List FsCategory) (id : String)
    (name : String) : List FsCategory × Option String :=
  let lowerCaseName := jsToLower name
  if categories.any (fun cat => cat.id != id && jsToLower cat.name == lowerCaseName) then
    (categories, some ("Category name already exists."))
  else
    (categories.map (fun cat =>
      if cat.id == id then { cat with name := name } else cat), none)

/-- `deleteCategoryMutation` (src/unnamed/part_003, lines 1179-1223):
error when the id is unknown; error (and no write) when any expense
document references the category name; otherwise delete the document. -/
def deleteCategoryMutation (categories : List FsCategory)
    (expenses : List FsExpense) (id : String) :
    List FsCategory × Option String :=
  match categories.find? (fun c => c.id == id) with
  | none => (categories, some ("Category not found."))
  | some categoryToDelete =>
    if expenses.any (fun e => e.category == categoryToDelete.name) then
      (categories, some ("Category is currently assigned to one or more expenses."))
    else
      (categories.filter (fun c => c.id != id), none)

/-- Counterexample to C2 as stated: the duplicate-create rejection does
NOT hold in every revision.  In the Firestore categories revision the
case-insensitive client check only runs when the case-SENSITIVE query
finds a document, so creating "rent" while "Rent" exists succeeds and
changes the collection; and the earliest vendors revision performs no
duplicate check at all, so an exact duplicate create also succeeds. -/
theorem c2_duplicate_create_counterexample :
    addCategoryMutation [{ id := "c1", name := "Rent" }] "rent" "c2"
      = ([{ id := "c1", name := "Rent" },
          { id := "c2", name := "rent" }], none) ∧
    (([{ id := "c1", name := "Rent" }] : List FsCategory).any
        (fun c => jsToLower c.name == jsToLower "rent") = true) ∧
    vendorsOnSubmitV0
        [{ id := 1, name := "SuperMart", contactPerson := none,
           contactEmail := none, contactPhone := none }] none
        { name := "SuperMart", contactPerson := none,
          contactEmail := none, contactPhone := none }
      = ([{ id := 2, name := "SuperMart", contactPerson := none,
            contactEmail := none, contactPhone := none },
          { id := 1, name := "SuperMart", contactPerson := none,
            contactEmail := none, contactPhone := none }], none) := by
  refine ⟨?_, ?_, ?_⟩ <;> decide

/-- Claim C2 (amended): in the revisions that run the duplicate check
before the insert — the local-storage categories screen, both later
local-storage vendors revisions and the Firestore vendors screen — a
create whose name equals an existing record's name case-insensitively
fails with a name-conflict error and leaves the collection unchanged.
(The earliest vendors revision checks nothing, and the Firestore
categories screen only rejects exact-case duplicates; see the
counterexample.) -/
theorem c2_duplicate_create_rejected
    (categories : List Category) (name : String)
    (vendors : List Vendor) (d : VendorFormValues)
    (fsVendors : List FsVendor) (newId : String)
    (h1 : ∃ c ∈ categories, jsToLower c.name = jsToLower name)
    (h2 : ∃ v ∈ vendors, jsToLower v.name = jsToLower d.name)
    (h3 : ∃ v ∈ fsVendors, jsToLower v.name = jsToLower d.name) :
    categoriesOnSubmit categories none name
      = (categories, some ("Category name already exists.")) ∧
    vendorsOnSubmitV1 vendors none d
      = (vendors, some ("Vendor name already exists.")) ∧
    vendorsOnSubmitV2 vendors none d
      = (vendors, some ("Vendor name already exists.")) ∧
    addVendorMutation fsVendors d newId
      = (fsVendors, some ("Vendor name already exists.")) := by
  obtain ⟨c₀, hc₀, hcn⟩ := h1
  obtain ⟨v₀, hv₀, hvn⟩ := h2
  obtain ⟨w₀, hw₀, hwn⟩ := h3
  have hcfind : (categories.find? (fun c =>
      jsToLower c.name == jsToLower name && some c.id != none)).isSome = true := by
    rw [List.find?_isSome]
    exact ⟨c₀, hc₀, by simp [hcn]⟩
  have hvfind : (vendors.find? (fun v =>
      jsToLower v.name == jsToLower d.name && some v.id != none)).isSome = true := by
    rw [List.find?_isSome]
    exact ⟨v₀, hv₀, by simp [hvn]⟩
  have hany : fsVendors.any (fun v => jsToLower v.name == jsToLower d.name) = true := by
    rw [List.any_eq_true]
    exact ⟨w₀, hw₀, by simp [hwn]⟩
  refine ⟨?_, ?_, ?_, ?_⟩
  · obtain ⟨c₁, hc₁⟩ := Option.isSome_iff_exists.mp hcfind
    simp only [categoriesOnSubmit, hc₁]
  · simp only [vendorsOnSubmitV1, hvfind]
    simp
  · simp only [vendorsOnSubmitV2, hvfind]
    simp
  · simp only [addVendorMutation, hany]
    simp

/-- Witness for C2 (amended) at concrete duplicate creates. -/
theorem c2_duplicate_create_rejected_witness :
    categoriesOnSubmit [{ id := 1, name := "Rent" }] none "rent"
      = ([{ id := 1, name := "Rent" }], some ("Category name already exists.")) ∧
    vendorsOnSubmitV1
        [{ id := 1, name := "SuperMart", contactPerson := none,
           contactEmail := none, contactPhone := none }] none
        { name := "supermart", contactPerson := none,
          contactEmail := none, contactPhone := none }
      = ([{ id := 1, name := "SuperMart", contactPerson := none,
            contactEmail := none, contactPhone := none }],
         some ("Vendor name already exists.")) ∧
    vendorsOnSubmitV2
        [{ id := 1, name := "SuperMart", contactPerson := none,
           contactEmail := none, contactPhone := none }] none
        { name := "supermart", contactPerson := none,
          contactEmail := none, contactPhone := none }
      = ([{ id := 1, name := "SuperMart", contactPerson := none,
            contactEmail := none, contactPhone := none }],
         some ("Vendor name already exists.")) ∧
    addVendorMutation
        [{ id := "v1", name := "SuperMart", contactPerson := none,
           contactEmail := none, contactPhone := none }]
        { name := "supermart", contactPerson := none,
          contactEmail := none, contactPhone := none } "v2"
      = ([{ id := "v1", name := "SuperMart", contactPerson := none,
            contactEmail := none, contactPhone := none }],
         some ("Vendor name already exists.")) :=
  c2_duplicate_create_rejected _ _ _ _ _ _
    (⟨{ id := 1, name := "Rent" }, by decide, by decide⟩)
    (⟨{ id := 1, name := "SuperMart", contactPerson := none,
        contactEmail := none, contactPhone := none }, by decide, by decide⟩)
    (⟨{ id := "v1", name := "SuperMart", contactPerson := none,
        contactEmail := none, contactPhone := none }, by decide, by decide⟩)

/-- Counterexample to C3 as stated: the in-use guard does NOT hold in
every revision.  The first local-storage vendors revision deletes a
vendor without consulting the expense collection: with an expense
referencing "SuperMart" in the store, deleting the vendor succeeds and
changes the collection instead of failing. -/
theorem c3_delete_in_use_counterexample :
    (([{ id := 100, date := 0, category := "Groceries",
         vendor := some "SuperMart", amount := 5, notes := none }] :
        List Expense).any
      (fun exp => exp.vendor == some "SuperMart") = true) ∧
    deleteVendorV1
        [{ id := 1, name := "SuperMart", contactPerson := none,
           contactEmail := none, contactPhone := none }] 1
      = ([], none) := by
  refine ⟨?_, ?_⟩ <;> decide

/-- Claim C3 (amended): in the revisions that run the in-use check — the
local-storage categories screen, the second local-storage vendors
revision and both Firestore screens — deleting a vendor or category whose
name is referenced by at least one expense fails with a reported error
and leaves the collection unchanged (these handlers never write the
expense collection at all).  The earliest vendors revisions delete
without any check; see the counterexample. -/
theorem c3_delete_in_use_rejected
    (categories : List Category) (lexpenses : List Expense)
    (cid : Int) (cat : Category)
    (hc : categories.find? (fun c => c.id == cid) = some cat)
    (hcref : lexpenses.any (fun exp => exp.category == cat.name) = true)
    (vendors : List Vendor) (vid : Int) (v : Vendor)
    (hv : vendors.find? (fun x => x.id == vid) = some v)
    (hvref : lexpenses.any (fun exp => exp.vendor == some v.name) = true)
    (fsVendors : List FsVendor) (fsExpenses : List FsExpense)
    (fvid : String) (fv : FsVendor)
    (hfv : fsVendors.find? (fun x => x.id == fvid) = some fv)
    (hfvref : fsExpenses.any (fun e => e.vendor == some fv.name) = true)
    (fsCategories : List FsCategory) (fcid : String) (fc : FsCategory)
    (hfc : fsCategories.find? (fun c => c.id == fcid) = some fc)
    (hfcref : fsExpenses.any (fun e => e.category == fc.name) = true) :
    deleteCategory categories lexpenses cid
      = (categories, some ("Cannot Delete Category")) ∧
    deleteVendorV2 vendors lexpenses vid
      = (vendors, some ("Cannot Delete Vendor")) ∧
    deleteVendorMutation fsVendors fsExpenses fvid
      = (fsVendors, some ("Vendor is currently assigned to one or more expenses.")) ∧
    deleteCategoryMutation fsCategories fsExpenses fcid
      = (fsCategories, some ("Category is currently assigned to one or more expenses.")) := by
  refine ⟨?_, ?_, ?_, ?_⟩
  · simp only [deleteCategory, hc, hcref]
    simp
  · simp only [deleteVendorV2, hv, hvref]
    simp
  · simp only [deleteVendorMutation, hfv, hfvref]
    simp
  · simp only [deleteCategoryMutation, hfc, hfcref]
    simp

/-- Witness for C3 (amended) at concrete referenced records. -/
theorem c3_delete_in_use_rejected_witness :
    deleteCategory [{ id := 1, name := "Rent" }]
        [{ id := 100, date := 0, category := "Rent",
           vendor := some "SuperMart", amount := 5, notes := none }] 1
      = ([{ id := 1, name := "Rent" }], some ("Cannot Delete Category")) ∧
    deleteVendorV2
        [{ id := 2, name := "SuperMart", contactPerson := none,
           contactEmail := none, contactPhone := none }]
        [{ id := 100, date := 0, category := "Rent",
           vendor := some "SuperMart", amount := 5, notes := none }] 2
      = ([{ id := 2, name := "SuperMart", contactPerson := none,
            contactEmail := none, contactPhone := none }],
         some ("Cannot Delete Vendor")) ∧
    deleteVendorMutation
        [{ id := "v1", name := "SuperMart", contactPerson := none,
           contactEmail := none, contactPhone := none }]
        [{ id := 7, date := 0, category := "Rent",
           vendor := some "SuperMart", amount := 5, notes := none }] "v1"
      = ([{ id := "v1", name := "SuperMart", contactPerson := none,
            contactEmail := none, contactPhone := none }],
         some ("Vendor is currently assigned to one or more expenses.")) ∧
    deleteCategoryMutation [{ id := "c1", name := "Rent" }]
        [{ id := 7, date := 0, category := "Rent",
           vendor := some "SuperMart", amount := 5, notes := none }] "c1"
      = ([{ id := "c1", name := "Rent" }],
         some ("Category is currently assigned to one or more expenses.")) :=
  c3_delete_in_use_rejected _ _ 1 { id := 1, name := "Rent" }
    (by decide) (by decide)
    _ 2 { id := 2, name := "SuperMart", contactPerson := none,
          contactEmail := none, contactPhone := none }
    (by decide) (by decide)
    _ _ "v1" { id := "v1", name := "SuperMart", contactPerson := none,
               contactEmail := none, contactPhone := none }
    (by decide) (by decide)
    _ "c1" { id := "c1", name := "Rent" }
    (by decide) (by decide)

/-- Counterexample to C6 as stated: the exclude-self duplicate check does
NOT hold in every revision.  In the first local-storage vendors revision
the duplicate check fires only when adding, so editing vendor 2 to the
name of vendor 1 succeeds and changes the collection instead of
failing. -/
theorem c6_update_duplicate_counterexample :
    vendorsOnSubmitV1
        [{ id := 1, name := "A", contactPerson := none,
           contactEmail := none, contactPhone := none },
         { id := 2, name := "B", contactPerson := none,
           contactEmail := none, contactPhone := none }] (some 2)
        { name := "A", contactPerson := none,
          contactEmail := none, contactPhone := none }
      = ([{ id := 1, name := "A", contactPerson := none,
            contactEmail := none, contactPhone := none },
          { id := 2, name := "A", contactPerson := none,
            contactEmail := none, contactPhone := none }], none) := by
  decide

/-- Claim C6 (amended): in the local-storage categories screen, the
second local-storage vendors revision and the Firestore update mutations,
the update applies the duplicate-name check with the edited record
excluded: when no other record carries the submitted name
(case-insensitively) — in particular when the edit keeps or merely
case-changes the record's own name in a collection of unique names — the
update succeeds and rewrites exactly the matching record, and when a
different record carries the name the update fails and leaves the
collection unchanged (for the second vendors revision provided the
record's own name differs from the submitted one, which its changed-name
condition requires).  In the first local-storage vendors revision edits
skip the check entirely; see the counterexample. -/
theorem c6_update_duplicate_check
    (categories : List Category) (eidC : Int) (name : String)
    (vendors : List Vendor) (eidV : Int) (dV : VendorFormValues)
    (fsVendors : List FsVendor) (idV : String)
    (fsCategories : List FsCategory) (idC : String) (nameC : String) :
    ((∀ c ∈ categories, c.id ≠ eidC → jsToLower c.name ≠ jsToLower name) →
      categoriesOnSubmit categories (some eidC) name
        = (categories.map (fun category =>
            if category.id == eidC then { category with name := name }
            else category), none)) ∧
    ((∀ v ∈ vendors, v.id ≠ eidV → jsToLower v.name ≠ jsToLower dV.name) →
      vendorsOnSubmitV2 vendors (some eidV) dV
        = (vendors.map (fun vendor =>
            if vendor.id == eidV then applyVendorForm vendor dV
            else vendor), none)) ∧
    ((∀ v ∈ fsVendors, v.id ≠ idV → jsToLower v.name ≠ jsToLower dV.name) →
      updateVendorMutation fsVendors idV dV
        = (fsVendors.map (fun v =>
            if v.id == idV then
              { id := v.id, name := dV.name,
                contactPerson := dV.contactPerson,
                contactEmail := dV.contactEmail,
                contactPhone := dV.contactPhone }
            else v), none)) ∧
    ((∀ c ∈ fsCategories, c.id ≠ idC → jsToLower c.name ≠ jsToLower nameC) →
      updateCategoryMutation fsCategories idC nameC
        = (fsCategories.map (fun cat =>
            if cat.id == idC then { cat with name := nameC } else cat), none)) ∧
    ((∃ c ∈ categories, c.id ≠ eidC ∧ jsToLower c.name = jsToLower name) →
      categoriesOnSubmit categories (some eidC) name
        = (categories, some ("Category name already exists."))) ∧
    ((∃ v ∈ vendors, v.id ≠ eidV ∧ jsToLower v.name = jsToLower dV.name) →
      (∀ v ∈ vendors, v.id = eidV → jsToLower v.name ≠ jsToLower dV.name) →
      vendorsOnSubmitV2 vendors (some eidV) dV
        = (vendors, some ("Vendor name already exists."))) ∧
    ((∃ v ∈ fsVendors, v.id ≠ idV ∧ jsToLower v.name = jsToLower dV.name) →
      updateVendorMutation fsVendors idV dV
        = (fsVendors, some ("Vendor name already exists."))) ∧
    ((∃ c ∈ fsCategories, c.id ≠ idC ∧ jsToLower c.name = jsToLower nameC) →
      updateCategoryMutation fsCategories idC nameC
        = (fsCategories, some ("Category name already exists."))) := by
  refine ⟨?_, ?_, ?_, ?_, ?_, ?_, ?_, ?_⟩
  · intro hno
    have hfind : categories.find? (fun c =>
        jsToLower c.name == jsToLower name && some c.id != some eidC) = none := by
      rw [List.find?_eq_none]
      intro c hc
      by_cases hid : c.id = eidC
      · simp [hid]
      · simp [hno c hc hid, hid]
    simp only [categoriesOnSubmit, hfind]
  · intro hno
    have hfind : vendors.find? (fun v =>
        jsToLower v.name == jsToLower dV.name && some v.id != some eidV) = none := by
      rw [List.find?_eq_none]
      intro v hv
      by_cases hid : v.id = eidV
      · simp [hid]
      · simp [hno v hv hid, hid]
    simp only [vendorsOnSubmitV2, hfind]
    simp
  · intro hno
    have hany : fsVendors.any (fun v =>
        v.id != idV && jsToLower v.name == jsToLower dV.name) = false := by
      rw [List.any_eq_false]
      intro v hv
      by_cases hid : v.id = idV
      · simp [hid]
      · simp [hno v hv hid, hid]
    simp only [updateVendorMutation, hany]
    simp
  · intro hno
    have hany : fsCategories.any (fun cat =>
        cat.id != idC && jsToLower cat.name == jsToLower nameC) = false := by
      rw [List.any_eq_false]
      intro c hc
      by_cases hid : c.id = idC
      · simp [hid]
      · simp [hno c hc hid, hid]
    simp only [updateCategoryMutation, hany]
    simp
  · intro hconf
    obtain ⟨c₀, hc₀, hcid, hcn⟩ := hconf
    have hfind : (categories.find? (fun c =>
        jsToLower c.name == jsToLower name && some c.id != some eidC)).isSome = true := by
      rw [List.find?_isSome]
      exact ⟨c₀, hc₀, by simp [hcn, hcid]⟩
    obtain ⟨c₁, hc₁⟩ := Option.isSome_iff_exists.mp hfind
    simp only [categoriesOnSubmit, hc₁]
  · intro hconf hown
    obtain ⟨v₀, hv₀, hvid, hvn⟩ := hconf
    have hfind : (vendors.find? (fun v =>
        jsToLower v.name == jsToLower dV.name && some v.id != some eidV)).isSome = true := by
      rw [List.find?_isSome]
      exact ⟨v₀, hv₀, by simp [hvn, hvid]⟩
    have hownmatch : (match vendors.find? (fun v => some v.id == some eidV) with
        | some v => jsToLower v.name == jsToLower dV.name
        | none => false) = false := by
      cases hfo : vendors.find? (fun v => some v.id == some eidV) with
      | none => rfl
      | some v =>
        have hmem := List.mem_of_find?_eq_some hfo
        have hpred := List.find?_some hfo
        have hveq : v.id = eidV := by simpa using hpred
        simpa using hown v hmem hveq
    simp only [vendorsOnSubmitV2, hfind, hownmatch]
    simp
  · intro hconf
    obtain ⟨v₀, hv₀, hvid, hvn⟩ := hconf
    have hany : fsVendors.any (fun v =>
        v.id != idV && jsToLower v.name == jsToLower dV.name) = true := by
      rw [List.any_eq_true]
      exact ⟨v₀, hv₀, by simp [hvn, hvid]⟩
    simp only [updateVendorMutation, hany]
    simp
  · intro hconf
    obtain ⟨c₀, hc₀, hcid, hcn⟩ := hconf
    have hany : fsCategories.any (fun cat =>
        cat.id != idC && jsToLower cat.name == jsToLower nameC) = true := by
      rw [List.any_eq_true]
      exact ⟨c₀, hc₀, by simp [hcn, hcid]⟩
    simp only [updateCategoryMutation, hany]
    simp

/-- Witness for C6 (amended): case-changing a record's own name succeeds
in all four implementations, and taking another record's name fails in
all four. -/
theorem c6_update_duplicate_check_witness :
    categoriesOnSubmit [⟨1, "Groceries"⟩, ⟨2, "Rent"⟩] (some 2) "rent"
      = ([⟨1, "Groceries"⟩, ⟨2, "rent"⟩], none) ∧
    vendorsOnSubmitV2 [⟨1, "SuperMart", none, none, none⟩] (some 1)
        ⟨"supermart", none, none, none⟩
      = ([⟨1, "supermart", none, none, none⟩], none) ∧
    updateVendorMutation [⟨"v1", "SuperMart", none, none, none⟩] "v1"
        ⟨"supermart", none, none, none⟩
      = ([⟨"v1", "supermart", none, none, none⟩], none) ∧
    updateCategoryMutation [⟨"c1", "Rent"⟩] "c1" "rent"
      = ([⟨"c1", "rent"⟩], none) ∧
    categoriesOnSubmit [⟨1, "Groceries"⟩, ⟨2, "Rent"⟩] (some 2) "groceries"
      = ([⟨1, "Groceries"⟩, ⟨2, "Rent"⟩], some ("Category name already exists.")) ∧
    vendorsOnSubmitV2 [⟨1, "A", none, none, none⟩, ⟨2, "B", none, none, none⟩]
        (some 2) ⟨"a", none, none, none⟩
      = ([⟨1, "A", none, none, none⟩, ⟨2, "B", none, none, none⟩],
         some ("Vendor name already exists.")) ∧
    updateVendorMutation
        [⟨"w1", "A", none, none, none⟩, ⟨"w2", "B", none, none, none⟩] "w2"
        ⟨"a", none, none, none⟩
      = ([⟨"w1", "A", none, none, none⟩, ⟨"w2", "B", none, none, none⟩],
         some ("Vendor name already exists.")) ∧
    updateCategoryMutation [⟨"d1", "Rent"⟩, ⟨"d2", "Food"⟩] "d2" "rent"
      = ([⟨"d1", "Rent"⟩, ⟨"d2", "Food"⟩],
         some ("Category name already exists.")) := by
  have hA := c6_update_duplicate_check
      [⟨1, "Groceries"⟩, ⟨2, "Rent"⟩] 2 "rent"
      [⟨1, "SuperMart", none, none, none⟩] 1 ⟨"supermart", none, none, none⟩
      [⟨"v1", "SuperMart", none, none, none⟩] "v1"
      [⟨"c1", "Rent"⟩] "c1" "rent"
  have hB := c6_update_duplicate_check
      [⟨1, "Groceries"⟩, ⟨2, "Rent"⟩] 2 "groceries"
      [⟨1, "A", none, none, none⟩, ⟨2, "B", none, none, none⟩] 2
        ⟨"a", none, none, none⟩
      [⟨"w1", "A", none, none, none⟩, ⟨"w2", "B", none, none, none⟩] "w2"
      [⟨"d1", "Rent"⟩, ⟨"d2", "Food"⟩] "d2" "rent"
  refine ⟨?_, ?_, ?_, ?_, ?_, ?_, ?_, ?_⟩
  · exact (hA.1 (by decide)).trans (by decide)
  · exact (hA.2.1 (by decide)).trans (by decide)
  · exact (hA.2.2.1 (by decide)).trans (by decide)
  · exact (hA.2.2.2.1 (by decide)).trans (by decide)
  · exact hB.2.2.2.2.1 ⟨⟨1, "Groceries"⟩, by decide, by decide, by decide⟩
  · exact hB.2.2.2.2.2.1
      ⟨⟨1, "A", none, none, none⟩, by decide, by decide, by decide⟩ (by decide)
  · exact hB.2.2.2.2.2.2.1
      ⟨⟨"w1", "A", none, none, none⟩, by decide, by decide, by decide⟩
  · exact hB.2.2.2.2.2.2.2
      ⟨⟨"d1", "Rent"⟩, by decide, by decide, by decide⟩

theorem mathMax_spec (x : Int) (xs : List Int) :
    (mathMax x xs = x ∨ mathMax x xs ∈ xs) ∧
    x ≤ mathMax x xs ∧ ∀ i ∈ xs, i ≤ mathMax x xs := by
  induction xs generalizing x with
  | nil => simp [mathMax]
  | cons y ys ih =>
    obtain ⟨hmem, hle, hall⟩ := ih (max x y)
    have hstep : mathMax x (y :: ys) = mathMax (max x y) ys := rfl
    refine ⟨?_, ?_, ?_⟩
    · rw [hstep]
      rcases hmem with h | h
      · rcases le_total x y with hxy | hxy
        · right
          rw [h, max_eq_right hxy]
          exact List.mem_cons_self y ys
        · left
          rw [h, max_eq_left hxy]
      · right
        exact List.mem_cons_of_mem y h
    · rw [hstep]
      exact le_trans (le_max_left x y) hle
    · intro i hi
      rw [hstep]
      rcases List.mem_cons.mp hi with h | h
      · subst h
        exact le_trans (le_max_right x i) hle
      · exact hall i h

/-- Claim C9: in the local-storage revisions every successful vendor or
category creation assigns the new record the id one plus the maximum id of
the current collection (1 when it is empty, and for the earliest
revision's `Math.max(0, ...ids) + 1` formula provided ids are
non-negative, as every reachable id is) and prepends the record; the new
id exceeds every existing id, so distinctness of ids is preserved. -/
theorem c9_local_id_generation (ids : List Int) (h0 : ∀ i ∈ ids, 0 ≤ i)
    (categories : List Category) (name : String)
    (hno : ∀ c ∈ categories, jsToLower c.name ≠ jsToLower name)
    (vendors : List Vendor) (d : VendorFormValues) :
    (ids = [] → nextLocalId ids = 1 ∧ nextLocalIdV0 ids = 1) ∧
    (ids ≠ [] → ∃ m, m ∈ ids ∧ (∀ i ∈ ids, i ≤ m) ∧
        nextLocalId ids = m + 1 ∧ nextLocalIdV0 ids = m + 1) ∧
    nextLocalId ids ∉ ids ∧
    nextLocalIdV0 ids ∉ ids ∧
    (ids.Nodup → (nextLocalId ids :: ids).Nodup ∧ (nextLocalIdV0 ids :: ids).Nodup) ∧
    categoriesOnSubmit categories none name
      = ({ id := nextLocalId (categories.map (fun c => c.id)), name := name }
          :: categories, none) ∧
    vendorsOnSubmitV0 vendors none d
      = (mkVendor (nextLocalIdV0 (vendors.map (fun v => v.id))) d :: vendors,
         none) := by
  have hnotmem1 : nextLocalId ids ∉ ids := by
    intro hmem
    cases ids with
    | nil => cases hmem
    | cons x xs =>
      have hspec := mathMax_spec x xs
      have hbound : ∀ i ∈ x :: xs, i ≤ mathMax x xs := by
        intro i hi
        rcases List.mem_cons.mp hi with h | h
        · subst h; exact hspec.2.1
        · exact hspec.2.2 i h
      have := hbound _ hmem
      have hval : nextLocalId (x :: xs) = mathMax x xs + 1 := rfl
      omega
  have hspec0 := mathMax_spec 0 ids
  have hnotmem0 : nextLocalIdV0 ids ∉ ids := by
    intro hmem
    have := hspec0.2.2 _ hmem
    have hval : nextLocalIdV0 ids = mathMax 0 ids + 1 := rfl
    omega
  refine ⟨?_, ?_, hnotmem1, hnotmem0, ?_, ?_, rfl⟩
  · intro hnil
    subst hnil
    exact ⟨rfl, rfl⟩
  · intro hne
    cases ids with
    | nil => exact absurd rfl hne
    | cons x xs =>
      have hspec := mathMax_spec x xs
      refine ⟨mathMax x xs, ?_, ?_, rfl, ?_⟩
      · rcases hspec.1 with h | h
        · rw [h]; exact List.mem_cons_self x xs
        · exact List.mem_cons_of_mem x h
      · intro i hi
        rcases List.mem_cons.mp hi with h | h
        · subst h; exact hspec.2.1
        · exact hspec.2.2 i h
      · have h0x : 0 ≤ x := h0 x (List.mem_cons_self x xs)
        have : nextLocalIdV0 (x :: xs) = mathMax (max 0 x) xs + 1 := rfl
        rw [this, max_eq_right h0x]
  · intro hnd
    exact ⟨List.nodup_cons.mpr ⟨hnotmem1, hnd⟩,
           List.nodup_cons.mpr ⟨hnotmem0, hnd⟩⟩
  · have hfind : categories.find? (fun c =>
        jsToLower c.name == jsToLower name && some c.id != none) = none := by
      rw [List.find?_eq_none]
      intro c hc
      simp [hno c hc]
    simp only [categoriesOnSubmit, hfind]

/-- Witness for C9 at concrete collections. -/
theorem c9_local_id_generation_witness :
    nextLocalId [1, 3, 2] ∉ ([1, 3, 2] : List Int) ∧
    nextLocalIdV0 [1, 3, 2] ∉ ([1, 3, 2] : List Int) ∧
    vendorsOnSubmitV0 [] none ⟨"SuperMart", none, none, none⟩
      = (mkVendor (nextLocalIdV0 (([] : List Vendor).map (fun v => v.id)))
          ⟨"SuperMart", none, none, none⟩ :: [], none) ∧
    categoriesOnSubmit [⟨1, "Groceries"⟩] none "Rent"
      = ({ id := nextLocalId (([⟨1, "Groceries"⟩] : List Category).map
            (fun c => c.id)), name := "Rent" } :: [⟨1, "Groceries"⟩], none) := by
  have h := c9_local_id_generation [1, 3, 2] (by decide)
      [⟨1, "Groceries"⟩] "Rent" (by decide) [] ⟨"SuperMart", none, none, none⟩
  exact ⟨h.2.2.1, h.2.2.2.1, h.2.2.2.2.2.2, h.2.2.2.2.2.1⟩

/-- Claim C10: a vendor or category update with a given id rewrites only
the record whose id matches — every record with a different id is
unchanged, every record (the updated one included) keeps its id, and the
collection's length and order are unchanged (the update is a positional
map) — and a delete request for an id not present in the collection
leaves it unchanged. -/
theorem c10_update_frame
    (vendors : List Vendor) (eid : Int) (d : VendorFormValues)
    (categories : List Category) (eidC : Int) (name : String)
    (lexpenses : List Expense) (cid : Int)
    (hmiss : ∀ c ∈ categories, c.id ≠ cid) :
    ((vendorsOnSubmitV0 vendors (some eid) d).1.length = vendors.length) ∧
    (∀ i (hi : i < vendors.length)
        (hi2 : i < (vendorsOnSubmitV0 vendors (some eid) d).1.length),
      (((vendorsOnSubmitV0 vendors (some eid) d).1.get ⟨i, hi2⟩).id
          = (vendors.get ⟨i, hi⟩).id) ∧
      ((vendors.get ⟨i, hi⟩).id ≠ eid →
        (vendorsOnSubmitV0 vendors (some eid) d).1.get ⟨i, hi2⟩
          = vendors.get ⟨i, hi⟩)) ∧
    ((categories.map (fun category =>
        if category.id == eidC then { category with name := name }
        else category)).length = categories.length) ∧
    (∀ i (hi : i < categories.length)
        (hi2 : i < (categories.map (fun category =>
          if category.id == eidC then { category with name := name }
          else category)).length),
      (((categories.map (fun category =>
          if category.id == eidC then { category with name := name }
          else category)).get ⟨i, hi2⟩).id = (categories.get ⟨i, hi⟩).id) ∧
      ((categories.get ⟨i, hi⟩).id ≠ eidC →
        (categories.map (fun category =>
          if category.id == eidC then { category with name := name }
          else category)).get ⟨i, hi2⟩ = categories.get ⟨i, hi⟩)) ∧
    deleteCategory categories lexpenses cid = (categories, none) := by
  have hmap : (vendorsOnSubmitV0 vendors (some eid) d).1
      = vendors.map (fun vendor =>
          if vendor.id == eid then applyVendorForm vendor d else vendor) := rfl
  refine ⟨?_, ?_, ?_, ?_, ?_⟩
  · rw [hmap, List.length_map]
  · intro i hi hi2
    have hget : (vendorsOnSubmitV0 vendors (some eid) d).1.get ⟨i, hi2⟩
        = (fun vendor =>
            if vendor.id == eid then applyVendorForm vendor d else vendor)
            (vendors.get ⟨i, hi⟩) := by
      simp [hmap, List.get_eq_getElem, List.getElem_map]
    rw [hget]
    simp only [List.get_eq_getElem]
    by_cases hid : vendors[i].id = eid
    · refine ⟨?_, fun hne => absurd hid hne⟩
      simp [hid, applyVendorForm]
    · constructor <;> simp [hid, applyVendorForm]
  · rw [List.length_map]
  · intro i hi hi2
    have hget : (categories.map (fun category =>
        if category.id == eidC then { category with name := name }
        else category)).get ⟨i, hi2⟩
        = (fun category =>
            if category.id == eidC then { category with name := name }
            else category) (categories.get ⟨i, hi⟩) := by
      simp [List.get_eq_getElem, List.getElem_map]
    rw [hget]
    simp only [List.get_eq_getElem]
    by_cases hid : categories[i].id = eidC
    · refine ⟨?_, fun hne => absurd hid hne⟩
      simp [hid]
    · constructor <;> simp [hid]
  · have hfind : categories.find? (fun c => c.id == cid) = none := by
      rw [List.find?_eq_none]
      intro c hc
      simp [hmiss c hc]
    simp only [deleteCategory, hfind]

/-- Witness for C10 at concrete collections with a missing delete id. -/
theorem c10_update_frame_witness :
    (vendorsOnSubmitV0
        [⟨1, "A", none, none, none⟩, ⟨2, "B", none, none, none⟩] (some 2)
        ⟨"C", none, none, none⟩).1.length = 2 ∧
    deleteCategory [⟨1, "Groceries"⟩] [] 5 = ([⟨1, "Groceries"⟩], none) := by
  have h := c10_update_frame
      [⟨1, "A", none, none, none⟩, ⟨2, "B", none, none, none⟩] 2
      ⟨"C", none, none, none⟩ [⟨1, "Groceries"⟩] 1 "X" [] 5 (by decide)
  exact ⟨h.1.trans (by decide), h.2.2.2.2⟩
